import Mathlib

/-!
Verification of the Interview Agent backend (session orchestration engine).

The definitions below are a shallow embedding of the Python sources:
  * `backend/services/rag_service.py` (chunking, indexing, search, the
    retrieval tool `search_candidate_info`),
  * `backend/models/feedback.py` (`save_feedback` upsert) together with
    `generate_feedback_on_end` in `backend/voice/voice_agent.py`,
  * the silence-monitoring loop and `say_with_tracking` wrapper of
    `backend/voice/voice_agent.py`,
  * the greeting / track-check logic of `entrypoint` in
    `backend/voice/voice_agent.py`,
  * the screen-compliance escalation protocol stated in
    `MOCK_INTERVIEW_PROMPT` (`backend/prompts.py`).

Strings are reasoned about through their underlying character lists;
Python `str.strip`, slicing and `in` are modelled by `pyStrip`, `pySlice`
and `pyContains` on `List Char` so that all length arithmetic is over
`List.length`.
-/

namespace InterviewAgent

/-! ## Python string primitives -/

/-- Characters stripped by Python `str.strip()` (whitespace). -/
def pyStripChars (l : List Char) : List Char :=
  ((l.dropWhile Char.isWhitespace).reverse.dropWhile Char.isWhitespace).reverse

/-- Python `s.strip()`. -/
def pyStrip (s : String) : String := String.mk (pyStripChars s.data)

/-- Python `s[:n]` (first `n` characters). -/
def pySlice (s : String) (n : Nat) : String := String.mk (s.data.take n)

/-- Python `needle in hay` (contiguous substring test). -/
def pyContains (hay needle : String) : Bool :=
  (List.range (hay.data.length + 1)).any fun i =>
    needle.data.isPrefixOf (hay.data.drop i)

/-- Python `text.split('\n\n')` on the character list: split at every
non-overlapping occurrence of the blank-line separator, scanned left to
right, keeping empty pieces. -/
def splitParas : List Char → List (List Char)
  | [] => [[]]
  | '\n' :: '\n' :: rest => [] :: splitParas rest
  | c :: rest =>
    match splitParas rest with
    | [] => [[c]]
    | piece :: pieces => (c :: piece) :: pieces

/-- Python `text.split('\n\n')`. -/
def pySplitParas (text : String) : List String :=
  (splitParas text.data).map String.mk

theorem length_dropWhile_le (p : Char → Bool) (l : List Char) :
    (l.dropWhile p).length ≤ l.length := by
  induction l with
  | nil => simp [List.dropWhile]
  | cons a l ih =>
    by_cases h : p a
    · simp [List.dropWhile, h]; omega
    · simp [List.dropWhile, h]

theorem pyStripChars_length_le (l : List Char) :
    (pyStripChars l).length ≤ l.length := by
  unfold pyStripChars
  calc ((l.dropWhile Char.isWhitespace).reverse.dropWhile Char.isWhitespace).reverse.length
      = ((l.dropWhile Char.isWhitespace).reverse.dropWhile Char.isWhitespace).length := by
        simp
    _ ≤ (l.dropWhile Char.isWhitespace).reverse.length :=
        length_dropWhile_le _ _
    _ = (l.dropWhile Char.isWhitespace).length := by simp
    _ ≤ l.length := length_dropWhile_le _ _

theorem dropWhile_append (p : Char → Bool) (l m : List Char) :
    (l ++ m).dropWhile p =
      if (l.dropWhile p).isEmpty then m.dropWhile p else l.dropWhile p ++ m := by
  induction l with
  | nil => simp
  | cons a l ih =>
    by_cases h : p a
    · simpa [List.dropWhile, h] using ih
    · simp [List.dropWhile, h]

theorem whitespace_newline : Char.isWhitespace '\n' = true := by decide

/-- Stripping is unaffected by a trailing blank-line separator. -/
theorem pyStripChars_append_sep (l : List Char) :
    pyStripChars (l ++ ['\n', '\n']) = pyStripChars l := by
  unfold pyStripChars
  rw [dropWhile_append]
  by_cases h : ((l.dropWhile Char.isWhitespace).isEmpty = true)
  · rw [if_pos h]
    have h' : l.dropWhile Char.isWhitespace = [] := List.isEmpty_iff.mp h
    rw [h']
    rfl
  · rw [if_neg h]
    have hrev : (l.dropWhile Char.isWhitespace ++ ['\n', '\n']).reverse
        = '\n' :: '\n' :: (l.dropWhile Char.isWhitespace).reverse := by
      simp
    rw [hrev, List.dropWhile_cons, whitespace_newline, List.dropWhile_cons,
      whitespace_newline]
    simp

theorem pyStrip_length_le (s : String) : (pyStrip s).length ≤ s.length :=
  pyStripChars_length_le s.data

theorem data_append (s t : String) : (s ++ t).data = s.data ++ t.data := rfl

theorem string_length_eq (s : String) : s.length = s.data.length := rfl

theorem string_length_append (s t : String) :
    (s ++ t).length = s.length + t.length := by
  rw [string_length_eq, string_length_eq, string_length_eq, data_append,
    List.length_append]

theorem pyStrip_append_sep (s : String) : pyStrip (s ++ "\n\n") = pyStrip s := by
  unfold pyStrip
  rw [data_append]
  exact congrArg String.mk (pyStripChars_append_sep s.data)

/-! ## ChunkStore: `RAGService._chunk_text`

Faithful to `rag_service.py` lines 193–210: paragraphs are the pieces of
`text.split('\n\n')` (modelled by `pySplitParas`); a paragraph is appended to the current chunk while
`len(current_chunk) + len(para) < chunk_size`, otherwise the current chunk
(if non-empty) is flushed stripped and the paragraph starts a new chunk;
a final non-empty chunk is flushed stripped. -/

def chunkLoop (csize : Nat) (chunks : List String) (cur : String) :
    List String → List String
  | [] => if cur ≠ "" then chunks ++ [pyStrip cur] else chunks
  | para :: rest =>
    if cur.length + para.length < csize then
      chunkLoop csize chunks (cur ++ para ++ "\n\n") rest
    else if cur ≠ "" then
      chunkLoop csize (chunks ++ [pyStrip cur]) (para ++ "\n\n") rest
    else
      chunkLoop csize chunks (para ++ "\n\n") rest

/-- Model of `RAGService._chunk_text(text, chunk_size)`. -/
def chunk_text (text : String) (chunk_size : Nat) : List String :=
  chunkLoop chunk_size [] "" (pySplitParas text)

theorem length_append_sep (s p : String) :
    (s ++ p ++ "\n\n").length = s.length + p.length + 2 := by
  rw [string_length_append, string_length_append]
  rfl

/-- Main invariant of the chunk loop: every produced chunk is either an
already-produced chunk, the strip of the pending chunk, within the budget,
or the strip of one of the remaining paragraphs. -/
theorem chunkLoop_spec (csize : Nat) :
    ∀ (paras : List String) (chunks : List String) (cur : String),
      ∀ c ∈ chunkLoop csize chunks cur paras,
        c ∈ chunks ∨ c = pyStrip cur ∨ c.length ≤ csize ∨
          ∃ p ∈ paras, c = pyStrip p := by
  intro paras
  induction paras with
  | nil =>
    intro chunks cur c hc
    simp only [chunkLoop] at hc
    by_cases h : cur ≠ ""
    · rw [if_pos h] at hc
      rcases List.mem_append.mp hc with h1 | h1
      · exact Or.inl h1
      · exact Or.inr (Or.inl (List.mem_singleton.mp h1))
    · rw [if_neg h] at hc
      exact Or.inl hc
  | cons para rest ih =>
    intro chunks cur c hc
    simp only [chunkLoop] at hc
    by_cases hlen : cur.length + para.length < csize
    · rw [if_pos hlen] at hc
      rcases ih chunks (cur ++ para ++ "\n\n") c hc with h1 | h1 | h1 | h1
      · exact Or.inl h1
      · -- the grown pending chunk strips to within the budget
        right; right; left
        have hstrip : pyStrip (cur ++ para ++ "\n\n") = pyStrip (cur ++ para) :=
          pyStrip_append_sep (cur ++ para)
        have hle : (pyStrip (cur ++ para)).length ≤ (cur ++ para).length :=
          pyStrip_length_le (cur ++ para)
        have hlen2 : (cur ++ para).length = cur.length + para.length :=
          string_length_append cur para
        rw [h1, hstrip]
        omega
      · exact Or.inr (Or.inr (Or.inl h1))
      · rcases h1 with ⟨p, hp, hcp⟩
        exact Or.inr (Or.inr (Or.inr ⟨p, List.mem_cons_of_mem _ hp, hcp⟩))
    · rw [if_neg hlen] at hc
      by_cases hcur : cur ≠ ""
      · rw [if_pos hcur] at hc
        rcases ih (chunks ++ [pyStrip cur]) (para ++ "\n\n") c hc with h1 | h1 | h1 | h1
        · rcases List.mem_append.mp h1 with h2 | h2
          · exact Or.inl h2
          · exact Or.inr (Or.inl (List.mem_singleton.mp h2))
        · right; right; right
          refine ⟨para, List.mem_cons_self _ _, ?_⟩
          rw [h1]; exact pyStrip_append_sep para
        · exact Or.inr (Or.inr (Or.inl h1))
        · rcases h1 with ⟨p, hp, hcp⟩
          exact Or.inr (Or.inr (Or.inr ⟨p, List.mem_cons_of_mem _ hp, hcp⟩))
      · rw [if_neg hcur] at hc
        rcases ih chunks (para ++ "\n\n") c hc with h1 | h1 | h1 | h1
        · exact Or.inl h1
        · right; right; right
          refine ⟨para, List.mem_cons_self _ _, ?_⟩
          rw [h1]; exact pyStrip_append_sep para
        · exact Or.inr (Or.inr (Or.inl h1))
        · rcases h1 with ⟨p, hp, hcp⟩
          exact Or.inr (Or.inr (Or.inr ⟨p, List.mem_cons_of_mem _ hp, hcp⟩))

/-- C7: every fragment produced by `_chunk_text` with budget 500 has length
at most 500, except a fragment that is a (stripped) single paragraph which
by itself exceeds the budget. -/
theorem chunk_length_bounded (text c : String) (hc : c ∈ chunk_text text 500) :
    c.length ≤ 500 ∨ ∃ p ∈ pySplitParas text, c = pyStrip p ∧ 500 < p.length := by
  rcases chunkLoop_spec 500 (pySplitParas text) [] "" c hc with h | h | h | h
  · cases h
  · left; rw [h]; decide
  · left; exact h
  · rcases h with ⟨p, hp, hcp⟩
    by_cases hb : c.length ≤ 500
    · exact Or.inl hb
    · right
      refine ⟨p, hp, hcp, ?_⟩
      have h1 : (pyStrip p).length ≤ p.length := pyStrip_length_le p
      rw [hcp] at hb
      omega

theorem chunk_length_bounded_witness :
    ("ab" : String).length ≤ 500 ∨
      ∃ p ∈ pySplitParas "ab", ("ab" : String) = pyStrip p ∧ 500 < p.length :=
  chunk_length_bounded "ab" "ab" (by decide)

/-! ## RetrievalEngine: indexing and search (`rag_service.py`)

The Qdrant collection is modelled as a list of points; `upsert` replaces
the stored point carrying the same id and appends points with new ids.
The Bedrock embedding call is a parameter `embed` (it either returns a
vector or raises, which `embed_text` re-raises, line 88); the similarity
score the store computes between two vectors is a parameter `score`;
Python's process-salted string `hash` is a parameter `pyHash`. -/

/-- An embedding vector (numeric entries abstracted to `Int`). -/
abbrev Emb := List Int

/-- Outcome of one `embed_text` call. -/
inductive EmbedResult where
  | ok (v : Emb)
  | error
deriving DecidableEq

/-- Point payload (rag_service.py lines 111–118). -/
structure Payload where
  text : String
  source : String
  user_name : String
  resume_id : String
  chunk_index : Nat
  total_chunks : Nat
deriving DecidableEq

structure Point where
  id : Nat
  vector : Emb
  payload : Payload
deriving DecidableEq

/-- The `SearchResult` dataclass (rag_service.py lines 20–33). -/
structure SearchResult where
  id : String
  score : Int
  metadata : Payload
deriving DecidableEq

def SearchResult.text (r : SearchResult) : String := r.metadata.text

/-- Mutable state of the `RAGService` singleton: whether Qdrant is
configured (`QDRANT_URL` set), the stored points, and the user context set
by `set_user_context`. -/
structure RAGState where
  hasQdrant : Bool
  store : List Point
  current_user_name : Option String
deriving DecidableEq

def idsOf (store : List Point) : List Nat := store.map Point.id

/-- Qdrant upsert of one point: overwrite the point with the same id, else
append. -/
def upsertPoint (store : List Point) (p : Point) : List Point :=
  if p.id ∈ idsOf store then
    store.map fun q => if q.id = p.id then p else q
  else store ++ [p]

def upsertPoints (store : List Point) (ps : List Point) : List Point :=
  ps.foldl upsertPoint store

/-- Point identity: Python hash of the resume id joined with the chunk
index by an underscore, reduced mod 2^63 (rag_service.py lines 104–107);
`pyHash` abstracts Python's process-salted string hash. -/
def pointId (pyHash : String → Int) (resume_id : String) (idx : Nat) : Nat :=
  (pyHash (resume_id ++ "_" ++ toString idx) % (2 : Int) ^ 63).toNat

/-- Build the points for `index_resume` (lines 101–120): one embedding call
per chunk, in order; `none` when a call raises (the exception aborts
`index_resume` before the single `upsert`, so the store is untouched). -/
def mkPoints (pyHash : String → Int) (embed : String → EmbedResult)
    (user_name resume_id : String) (total : Nat) :
    Nat → List String → Option (List Point)
  | _, [] => some []
  | idx, chunk :: rest =>
    match embed chunk with
    | .error => none
    | .ok v =>
      match mkPoints pyHash embed user_name resume_id total (idx + 1) rest with
      | none => none
      | some ps =>
        some ({ id := pointId pyHash resume_id idx,
                vector := v,
                payload := { text := chunk, source := "resume",
                             user_name := user_name, resume_id := resume_id,
                             chunk_index := idx, total_chunks := total } } :: ps)

/-- Model of `RAGService.index_resume` (lines 90–132): returns `False` without
raising when Qdrant is not configured; chunks, embeds every chunk, then
upserts all points in one call; any exception is caught and turned into
`False`. -/
def index_resume (pyHash : String → Int) (embed : String → EmbedResult)
    (st : RAGState) (user_name resume_text resume_id : String) :
    RAGState × Bool :=
  if ¬ st.hasQdrant then (st, false)
  else
    let chunks := chunk_text resume_text 500
    match mkPoints pyHash embed user_name resume_id chunks.length 0 chunks with
    | none => (st, false)
    | some points => ({ st with store := upsertPoints st.store points }, true)

/-- Descending insertion by score, modelling the store returning hits in
descending score order. -/
def insertDesc (key : Point → Int) (p : Point) : List Point → List Point
  | [] => [p]
  | q :: rest => if key q < key p then p :: q :: rest else q :: insertDesc key p rest

def sortDesc (key : Point → Int) (l : List Point) : List Point :=
  l.foldr (insertDesc key) []

/-- Model of `RAGService._search_collection` (lines 142–191): `[]` when Qdrant is
not configured; embeds the query (an embedding exception is caught by the
surrounding `except` and turned into `[]`); similarity search restricted
by must-conditions on `user_name` and optionally `source`, limited to
`top_k`, descending score. -/
def _search_collection (embed : String → EmbedResult) (score : Emb → Emb → Int)
    (st : RAGState) (query user_name : String) (source_filter : Option String)
    (top_k : Nat) : List SearchResult :=
  if ¬ st.hasQdrant then []
  else
    match embed query with
    | .error => []
    | .ok qv =>
      let filtered := st.store.filter fun p =>
        p.payload.user_name == user_name &&
        (match source_filter with
         | some s => p.payload.source == s
         | none => true)
      ((sortDesc (fun p => score qv p.vector) filtered).take top_k).map fun p =>
        { id := toString p.id, score := score qv p.vector, metadata := p.payload }

/-- Model of `RAGService.search_resume` (lines 134–136). -/
def search_resume (embed : String → EmbedResult) (score : Emb → Emb → Int)
    (st : RAGState) (query user_name : String) (top_k : Nat) : List SearchResult :=
  _search_collection embed score st query user_name (some "resume") top_k

/-- The retrieval tool `search_candidate_info` (rag_service.py
lines 303–345): a "no identity bound" sentence when no user context is
set, a "nothing found" sentence on an empty search, otherwise the
double-newline join of the (at most 5) result texts truncated to 300
characters. -/
def search_candidate_info (embed : String → EmbedResult) (score : Emb → Emb → Int)
    (st : RAGState) (query : String) : String :=
  match st.current_user_name with
  | none =>
    "I don't have access to your resume. Please upload it to get personalized guidance."
  | some uname =>
    let results := search_resume embed score st query uname 5
    if results.isEmpty then
      "I couldn't find relevant information in your resume for this query. The resume may still be indexing, or it might not contain information matching your query."
    else
      String.intercalate "\n\n" (results.map fun r => pySlice r.text 300)

/-! ## Upsert id bookkeeping (for C3) -/

theorem idsOf_upsertPoint (store : List Point) (p : Point) :
    idsOf (upsertPoint store p) =
      if p.id ∈ idsOf store then idsOf store else idsOf store ++ [p.id] := by
  unfold upsertPoint
  by_cases h : p.id ∈ idsOf store
  · rw [if_pos h, if_pos h]
    unfold idsOf
    rw [List.map_map]
    refine List.map_congr_left ?_
    intro q _
    by_cases hq : q.id = p.id
    · simp [hq]
    · simp [hq]
  · rw [if_neg h, if_neg h]
    unfold idsOf
    simp

theorem mem_idsOf_upsertPoint_self (store : List Point) (p : Point) :
    p.id ∈ idsOf (upsertPoint store p) := by
  rw [idsOf_upsertPoint]
  by_cases h : p.id ∈ idsOf store
  · rwa [if_pos h]
  · rw [if_neg h]
    exact List.mem_append_right _ (List.mem_singleton.mpr rfl)

theorem mem_idsOf_upsertPoint_mono (store : List Point) (p : Point) (a : Nat)
    (ha : a ∈ idsOf store) : a ∈ idsOf (upsertPoint store p) := by
  rw [idsOf_upsertPoint]
  by_cases h : p.id ∈ idsOf store
  · rwa [if_pos h]
  · rw [if_neg h]
    exact List.mem_append_left _ ha

theorem mem_idsOf_upsertPoints_mono (ps : List Point) :
    ∀ (store : List Point) (a : Nat), a ∈ idsOf store →
      a ∈ idsOf (upsertPoints store ps) := by
  induction ps with
  | nil => intro store a ha; exact ha
  | cons p ps ih =>
    intro store a ha
    exact ih (upsertPoint store p) a (mem_idsOf_upsertPoint_mono store p a ha)

theorem mem_idsOf_upsertPoints (ps : List Point) :
    ∀ (store : List Point) (q : Point), q ∈ ps →
      q.id ∈ idsOf (upsertPoints store ps) := by
  induction ps with
  | nil => intro _ _ h; cases h
  | cons p ps ih =>
    intro store q hq
    rcases List.mem_cons.mp hq with h | h
    · subst h
      exact mem_idsOf_upsertPoints_mono ps (upsertPoint store q) q.id
        (mem_idsOf_upsertPoint_self store q)
    · exact ih (upsertPoint store p) q h

/-- Upserting points whose ids are all already stored changes no id. -/
theorem idsOf_upsertPoints_of_present (ps : List Point) :
    ∀ (store : List Point), (∀ q ∈ ps, q.id ∈ idsOf store) →
      idsOf (upsertPoints store ps) = idsOf store := by
  induction ps with
  | nil => intro store _; rfl
  | cons p ps ih =>
    intro store hall
    have hp : p.id ∈ idsOf store := hall p (List.mem_cons_self _ _)
    have h1 : idsOf (upsertPoint store p) = idsOf store := by
      rw [idsOf_upsertPoint, if_pos hp]
    have h2 : ∀ q ∈ ps, q.id ∈ idsOf (upsertPoint store p) := by
      intro q hq
      rw [h1]
      exact hall q (List.mem_cons_of_mem _ hq)
    calc idsOf (upsertPoints (upsertPoint store p) ps)
        = idsOf (upsertPoint store p) := ih _ h2
      _ = idsOf store := h1

theorem store_length_eq_idsOf_length (store : List Point) :
    store.length = (idsOf store).length := by
  unfold idsOf
  rw [List.length_map]

/-- C3: re-indexing the same `(user_name, resume_id)` with the same text is
an overwrite: the stored point identities and the number of stored points
after the second `index_resume` equal those after the first. -/
theorem index_resume_idempotent (pyHash : String → Int)
    (embed : String → EmbedResult) (st : RAGState)
    (user_name resume_text resume_id : String) :
    idsOf (index_resume pyHash embed
        (index_resume pyHash embed st user_name resume_text resume_id).1
        user_name resume_text resume_id).1.store
      = idsOf (index_resume pyHash embed st user_name resume_text resume_id).1.store ∧
    (index_resume pyHash embed
        (index_resume pyHash embed st user_name resume_text resume_id).1
        user_name resume_text resume_id).1.store.length
      = (index_resume pyHash embed st user_name resume_text resume_id).1.store.length := by
  unfold index_resume
  by_cases hq : ¬ st.hasQdrant
  · rw [if_pos hq]
    rw [if_pos hq]
    exact ⟨rfl, rfl⟩
  · rw [if_neg hq]
    cases hmk : mkPoints pyHash embed user_name resume_id
        (chunk_text resume_text 500).length 0 (chunk_text resume_text 500) with
    | none =>
      simp only [hmk]
      rw [if_neg hq]
      exact ⟨rfl, rfl⟩
    | some points =>
      simp only [hmk]
      rw [if_neg hq]
      have hall : ∀ q ∈ points,
          q.id ∈ idsOf (upsertPoints st.store points) :=
        fun q hq => mem_idsOf_upsertPoints points st.store q hq
      have hids : idsOf (upsertPoints (upsertPoints st.store points) points)
          = idsOf (upsertPoints st.store points) :=
        idsOf_upsertPoints_of_present points (upsertPoints st.store points) hall
      refine ⟨hids, ?_⟩
      rw [store_length_eq_idsOf_length, store_length_eq_idsOf_length, hids]

/-! ## Search scoping (C1) -/

theorem mem_insertDesc (key : Point → Int) (p a : Point) :
    ∀ l : List Point, a ∈ insertDesc key p l → a = p ∨ a ∈ l := by
  intro l
  induction l with
  | nil =>
    intro h
    simp only [insertDesc] at h
    exact Or.inl (List.mem_singleton.mp h)
  | cons q rest ih =>
    intro h
    simp only [insertDesc] at h
    by_cases hk : key q < key p
    · rw [if_pos hk] at h
      rcases List.mem_cons.mp h with h1 | h1
      · exact Or.inl h1
      · exact Or.inr h1
    · rw [if_neg hk] at h
      rcases List.mem_cons.mp h with h1 | h1
      · exact Or.inr (h1 ▸ List.mem_cons_self _ _)
      · rcases ih h1 with h2 | h2
        · exact Or.inl h2
        · exact Or.inr (List.mem_cons_of_mem _ h2)

theorem mem_sortDesc (key : Point → Int) (a : Point) :
    ∀ l : List Point, a ∈ sortDesc key l → a ∈ l := by
  intro l
  induction l with
  | nil => intro h; cases h
  | cons q rest ih =>
    intro h
    rcases mem_insertDesc key q a (sortDesc key rest) h with h1 | h1
    · exact h1 ▸ List.mem_cons_self _ _
    · exact List.mem_cons_of_mem _ (ih h1)

/-- C1: every result of `_search_collection` is owned by the requested
participant — the must-filter on `user_name` admits no other owner, for
any query, any bound, any store contents. -/
theorem search_scoped_to_user (embed : String → EmbedResult)
    (score : Emb → Emb → Int) (st : RAGState)
    (query user_name : String) (source_filter : Option String) (top_k : Nat)
    (r : SearchResult)
    (hr : r ∈ _search_collection embed score st query user_name source_filter top_k) :
    r.metadata.user_name = user_name := by
  unfold _search_collection at hr
  by_cases hq : ¬ st.hasQdrant
  · rw [if_pos hq] at hr
    cases hr
  · rw [if_neg hq] at hr
    cases hemb : embed query with
    | error => rw [hemb] at hr; cases hr
    | ok qv =>
      rw [hemb] at hr
      simp only at hr
      rcases List.mem_map.mp hr with ⟨p, hp, hpr⟩
      have hp2 := List.take_subset _ _ hp
      have hp3 := mem_sortDesc _ p _ hp2
      have hp4 := (List.mem_filter.mp hp3).2
      have hp5 : (p.payload.user_name == user_name) = true :=
        (Bool.and_eq_true _ _).mp hp4 |>.1
      have : p.payload.user_name = user_name := eq_of_beq hp5
      rw [← hpr]
      exact this

/-- A one-point store owned by `"alice"`: searching it as `"alice"`
returns that point, and the theorem instance confirms ownership. -/
def egPayload : Payload :=
  { text := "Python developer with 5 years of experience.",
    source := "resume", user_name := "alice", resume_id := "r1",
    chunk_index := 0, total_chunks := 1 }

def egPoint : Point := { id := 7, vector := [1], payload := egPayload }

def egState : RAGState :=
  { hasQdrant := true, store := [egPoint], current_user_name := some "alice" }

def egEmbed : String → EmbedResult := fun _ => .ok [1]

def egScore : Emb → Emb → Int := fun _ _ => 0

def egResult : SearchResult := { id := "7", score := 0, metadata := egPayload }

theorem search_scoped_to_user_witness :
    egResult.metadata.user_name = "alice" :=
  search_scoped_to_user egEmbed egScore egState "experience" "alice"
    (some "resume") 5 egResult (by decide)

/-! ## The retrieval tool output (C8) -/

theorem pySlice_length_le (s : String) (n : Nat) : (pySlice s n).length ≤ n :=
  List.length_take_le n s.data

theorem search_length_le (embed : String → EmbedResult) (score : Emb → Emb → Int)
    (st : RAGState) (query user_name : String) (source_filter : Option String)
    (top_k : Nat) :
    (_search_collection embed score st query user_name source_filter top_k).length
      ≤ top_k := by
  unfold _search_collection
  by_cases hq : ¬ st.hasQdrant
  · rw [if_pos hq]; exact Nat.zero_le _
  · rw [if_neg hq]
    cases hemb : embed query with
    | error => exact Nat.zero_le _
    | ok qv =>
      simp only
      rw [List.length_map]
      exact List.length_take_le _ _

/-- C8: the tool returns the "no identity bound" sentence when no user
context is set, the "nothing found" sentence when the search is empty, and
otherwise the double-newline join of at most 5 texts of at most 300
characters each. -/
theorem search_candidate_info_spec (embed : String → EmbedResult)
    (score : Emb → Emb → Int) (st : RAGState) (query : String) :
    (st.current_user_name = none →
      search_candidate_info embed score st query =
        "I don't have access to your resume. Please upload it to get personalized guidance.") ∧
    (∀ u, st.current_user_name = some u →
      search_resume embed score st query u 5 = [] →
      search_candidate_info embed score st query =
        "I couldn't find relevant information in your resume for this query. The resume may still be indexing, or it might not contain information matching your query.") ∧
    (∀ u, st.current_user_name = some u →
      search_resume embed score st query u 5 ≠ [] →
      ∃ texts : List String,
        search_candidate_info embed score st query =
          String.intercalate "\n\n" texts ∧
        texts.length ≤ 5 ∧ ∀ t ∈ texts, t.length ≤ 300) := by
  refine ⟨?_, ?_, ?_⟩
  · intro h
    unfold search_candidate_info
    rw [h]
  · intro u hu hres
    unfold search_candidate_info
    rw [hu]
    simp only [hres]
    rfl
  · intro u hu hres
    unfold search_candidate_info
    rw [hu]
    simp only
    rw [if_neg (fun h => hres (List.isEmpty_iff.mp h))]
    refine ⟨(search_resume embed score st query u 5).map
      fun r => pySlice r.text 300, rfl, ?_, ?_⟩
    · rw [List.length_map]
      exact search_length_le embed score st query u (some "resume") 5
    · intro t ht
      rcases List.mem_map.mp ht with ⟨r, _, hrt⟩
      rw [← hrt]
      exact pySlice_length_le r.text 300

def egStateNoUser : RAGState :=
  { hasQdrant := true, store := [], current_user_name := none }

def egStateEmpty : RAGState :=
  { hasQdrant := true, store := [], current_user_name := some "bob" }

theorem search_candidate_info_spec_witness :
    (search_candidate_info egEmbed egScore egStateNoUser "q" =
      "I don't have access to your resume. Please upload it to get personalized guidance.") ∧
    (search_candidate_info egEmbed egScore egStateEmpty "q" =
      "I couldn't find relevant information in your resume for this query. The resume may still be indexing, or it might not contain information matching your query.") ∧
    (∃ texts : List String,
      search_candidate_info egEmbed egScore egState "q" =
        String.intercalate "\n\n" texts ∧
      texts.length ≤ 5 ∧ ∀ t ∈ texts, t.length ≤ 300) :=
  ⟨(search_candidate_info_spec egEmbed egScore egStateNoUser "q").1 rfl,
   (search_candidate_info_spec egEmbed egScore egStateEmpty "q").2.1 "bob" rfl
     (by decide),
   (search_candidate_info_spec egEmbed egScore egState "q").2.2 "alice" rfl
     (by decide)⟩

/-! ## Failure semantics (C9)

`embed_text` re-raises Bedrock failures (rag_service.py line 88), but both
callers catch every exception: `index_resume` returns `False`
(lines 130–132) and `_search_collection` returns `[]` (lines 189–191), so
a hard embedding failure during search is indistinguishable from an empty
match set. -/

def embedFail : String → EmbedResult := fun _ => .error

/-- Counterexample to C9's "callers can distinguish nothing-found from a
hard failure": on the same store, a hard embedding failure and a genuine
no-match search return the identical empty list. -/
theorem search_failure_indistinguishable :
    _search_collection embedFail egScore egStateEmpty "q" "bob" (some "resume") 5
      = _search_collection egEmbed egScore egStateEmpty "q" "bob" (some "resume") 5 ∧
    _search_collection embedFail egScore egStateEmpty "q" "bob" (some "resume") 5
      = [] := by
  constructor
  · rfl
  · rfl

/-- C9 (amended): a not-configured store is a soft condition checked
before each call (`index_resume` returns `False` without raising and the
store is untouched; search returns `[]`); an embedding failure is caught
inside each operation — `index_resume` reports it as the same boolean
`False` with the store untouched, and `_search_collection` swallows it
into `[]`, the same value as "nothing found". -/
theorem error_semantics (pyHash : String → Int) (embed : String → EmbedResult)
    (score : Emb → Emb → Int) (st : RAGState)
    (user_name resume_text resume_id query : String)
    (source_filter : Option String) (top_k : Nat) :
    (st.hasQdrant = false →
      index_resume pyHash embed st user_name resume_text resume_id = (st, false) ∧
      _search_collection embed score st query user_name source_filter top_k = []) ∧
    (embed query = .error →
      _search_collection embed score st query user_name source_filter top_k = []) ∧
    ((∀ c, embed c = .error) → chunk_text resume_text 500 ≠ [] →
      index_resume pyHash embed st user_name resume_text resume_id = (st, false)) := by
  refine ⟨?_, ?_, ?_⟩
  · intro h
    have hq : ¬ (st.hasQdrant = true) := by rw [h]; simp
    constructor
    · unfold index_resume
      rw [if_pos hq]
    · unfold _search_collection
      rw [if_pos hq]
  · intro hemb
    unfold _search_collection
    by_cases hq : ¬ st.hasQdrant
    · rw [if_pos hq]
    · rw [if_neg hq, hemb]
  · intro hall hch
    unfold index_resume
    by_cases hq : ¬ st.hasQdrant
    · rw [if_pos hq]
    · rw [if_neg hq]
      cases hc : chunk_text resume_text 500 with
      | nil => exact absurd hc hch
      | cons c rest =>
        simp only [mkPoints, hall c]

theorem error_semantics_witness :
    ((index_resume (fun _ => 0) egEmbed
        { hasQdrant := false, store := [], current_user_name := none }
        "bob" "text" "r1"
      = ({ hasQdrant := false, store := [], current_user_name := none }, false)) ∧
     (_search_collection egEmbed egScore
        { hasQdrant := false, store := [], current_user_name := none }
        "q" "bob" (some "resume") 5 = [])) ∧
    (_search_collection embedFail egScore egStateEmpty "q" "bob" (some "resume") 5
      = []) ∧
    (index_resume (fun _ => 0) embedFail egStateEmpty "bob" "text" "r1"
      = (egStateEmpty, false)) :=
  ⟨(error_semantics (fun _ => 0) egEmbed egScore
      { hasQdrant := false, store := [], current_user_name := none }
      "bob" "text" "r1" "q" (some "resume") 5).1 rfl,
   (error_semantics (fun _ => 0) embedFail egScore egStateEmpty
      "bob" "text" "r1" "q" (some "resume") 5).2.1 rfl,
   (error_semantics (fun _ => 0) embedFail egScore egStateEmpty
      "bob" "text" "r1" "q" (some "resume") 5).2.2 (fun _ => rfl) (by decide)⟩

/-! ## FeedbackReport persistence (C2)

In `FeedbackModel.save_feedback` (models/feedback.py lines 47–71) the
Mongo `update_one` call, filtered on the session id and upserting the
whole document, replaces the matching record when one exists and inserts
otherwise.
`generate_feedback_on_end` (voice_agent.py lines 783–843) guards the whole
pipeline with the `feedback_generated` flag, setting it before the attempt
and resetting it when generation or persistence fails. -/

/-- One transcript entry (`assistant._transcript` items). -/
structure TranscriptEntry where
  role : String
  content : String
  timestamp : Nat
deriving DecidableEq

structure FeedbackDoc where
  session_id : String
  user_name : String
  job_description : Option String
  interview_mode : String
  feedback_text : String
  sections : List (String × String)
  created_at : Nat
  updated_at : Nat
deriving DecidableEq

/-- Model of `FeedbackModel.create_feedback_document`. -/
def create_feedback_document (session_id user_name : String)
    (feedback_text : String) (sections : List (String × String))
    (job_description : Option String) (interview_mode : String)
    (now : Nat) : FeedbackDoc :=
  { session_id := session_id, user_name := user_name,
    job_description := job_description, interview_mode := interview_mode,
    feedback_text := feedback_text, sections := sections,
    created_at := now, updated_at := now }

/-- Mongo `update_one` with a `session_id` filter updates the first
matching record. -/
def replaceFirst (sid : String) (doc : FeedbackDoc) :
    List FeedbackDoc → List FeedbackDoc
  | [] => []
  | d :: rest =>
    if d.session_id == sid then doc :: rest
    else d :: replaceFirst sid doc rest

/-- Model of `FeedbackModel.save_feedback`: upsert keyed by `session_id`. -/
def save_feedback (coll : List FeedbackDoc) (sid : String)
    (doc : FeedbackDoc) : List FeedbackDoc :=
  if coll.any (fun d => d.session_id == sid) then replaceFirst sid doc coll
  else coll ++ [doc]

/-- State consulted and mutated by `generate_feedback_on_end`. -/
structure SessionEnd where
  feedback_generated : Bool
  session_id : Option String
  transcript : List TranscriptEntry
  coll : List FeedbackDoc
deriving DecidableEq

/-- Model of `generate_feedback_on_end`: skipped when the flag is set or there is
no session id / empty transcript; sets the flag, generates feedback
(`genResult = none` models `generate_feedback` raising — the outer
`except` then resets the flag), saves via the upsert (`saveOk = false`
models the Mongo write failing — the `except db_error` resets the flag and
leaves the store unchanged). -/
def generate_feedback_on_end (user_name : String)
    (job_description : Option String) (interview_mode : String)
    (genResult : Option (String × List (String × String))) (saveOk : Bool)
    (now : Nat) (st : SessionEnd) : SessionEnd :=
  if st.feedback_generated then st
  else
    match st.session_id with
    | none => st
    | some sid =>
      if st.transcript.length = 0 then st
      else
        match genResult with
        | none => st
        | some (ftext, sections) =>
          let doc := create_feedback_document sid user_name ftext sections
            job_description interview_mode now
          if saveOk then
            { st with feedback_generated := true,
                      coll := save_feedback st.coll sid doc }
          else
            { st with feedback_generated := false }

/-- Number of stored feedback records keyed by `sid`. -/
def countFor (sid : String) (coll : List FeedbackDoc) : Nat :=
  (coll.filter fun d => d.session_id == sid).length

theorem countFor_cons (sid : String) (d : FeedbackDoc) (rest : List FeedbackDoc) :
    countFor sid (d :: rest) =
      (if d.session_id == sid then 1 else 0) + countFor sid rest := by
  unfold countFor
  rw [List.filter_cons]
  by_cases h : d.session_id == sid
  · rw [if_pos h, if_pos h, List.length_cons]
    omega
  · rw [if_neg h, if_neg h]
    omega

theorem countFor_replaceFirst (sid sid0 : String) (doc : FeedbackDoc)
    (hdoc : doc.session_id = sid0) :
    ∀ coll : List FeedbackDoc,
      countFor sid (replaceFirst sid0 doc coll) = countFor sid coll := by
  intro coll
  induction coll with
  | nil => rfl
  | cons d rest ih =>
    unfold replaceFirst
    by_cases h : d.session_id == sid0
    · rw [if_pos h, countFor_cons, countFor_cons]
      have hd : d.session_id = sid0 := eq_of_beq h
      rw [hdoc, hd]
    · rw [if_neg h, countFor_cons, countFor_cons, ih]

theorem countFor_append_one (sid : String) (coll : List FeedbackDoc)
    (doc : FeedbackDoc) :
    countFor sid (coll ++ [doc]) =
      countFor sid coll + (if doc.session_id == sid then 1 else 0) := by
  unfold countFor
  rw [List.filter_append, List.length_append, List.filter_cons]
  by_cases h : doc.session_id == sid
  · rw [if_pos h, if_pos h]
    rfl
  · rw [if_neg h, if_neg h]
    rfl

theorem countFor_of_any_false (sid : String) (coll : List FeedbackDoc)
    (h : coll.any (fun d => d.session_id == sid) = false) :
    countFor sid coll = 0 := by
  unfold countFor
  rw [List.length_eq_zero]
  rw [List.filter_eq_nil_iff]
  intro d hd
  have := List.any_eq_false.mp h d hd
  simpa using this

/-- The upsert never leaves more than one record for a key it could only
have one record for. -/
theorem countFor_save_feedback_le (sid sid0 : String) (coll : List FeedbackDoc)
    (doc : FeedbackDoc) (hdoc : doc.session_id = sid0)
    (h : countFor sid coll ≤ 1) :
    countFor sid (save_feedback coll sid0 doc) ≤ 1 := by
  unfold save_feedback
  by_cases hany : coll.any (fun d => d.session_id == sid0)
  · rw [if_pos hany, countFor_replaceFirst sid sid0 doc hdoc]
    exact h
  · rw [if_neg hany, countFor_append_one]
    by_cases hds : doc.session_id == sid
    · rw [if_pos hds]
      have hss : sid0 = sid := by rw [← hdoc]; exact eq_of_beq hds
      have h0 : countFor sid coll = 0 := by
        apply countFor_of_any_false
        rw [← hss]
        exact Bool.eq_false_iff.mpr hany
      omega
    · rw [if_neg hds]
      omega

theorem generate_feedback_on_end_countFor (user_name : String)
    (job_description : Option String) (interview_mode : String)
    (genResult : Option (String × List (String × String))) (saveOk : Bool)
    (now : Nat) (st : SessionEnd) (sid : String)
    (h : countFor sid st.coll ≤ 1) :
    countFor sid (generate_feedback_on_end user_name job_description
      interview_mode genResult saveOk now st).coll ≤ 1 := by
  unfold generate_feedback_on_end
  split
  · exact h
  · split
    · exact h
    · split
      · exact h
      · split
        · exact h
        · split
          · exact countFor_save_feedback_le sid _ st.coll _ rfl h
          · exact h

/-- C2: signalling end-of-session twice leaves at most one feedback record
per session identity — the upsert keyed by `session_id`, behind the
`feedback_generated` guard, never creates a second record for the same
key, whatever the generation/persistence outcomes of either teardown. -/
theorem duplicate_teardown_single_report (user_name : String)
    (job_description : Option String) (interview_mode : String)
    (gen1 gen2 : Option (String × List (String × String))) (sv1 sv2 : Bool)
    (n1 n2 : Nat) (st : SessionEnd) (sid : String)
    (h : countFor sid st.coll ≤ 1) :
    countFor sid (generate_feedback_on_end user_name job_description
        interview_mode gen2 sv2 n2
        (generate_feedback_on_end user_name job_description interview_mode
          gen1 sv1 n1 st)).coll ≤ 1 :=
  generate_feedback_on_end_countFor user_name job_description interview_mode
    gen2 sv2 n2 _ sid
    (generate_feedback_on_end_countFor user_name job_description
      interview_mode gen1 sv1 n1 st sid h)

def egSessionEnd : SessionEnd :=
  { feedback_generated := false, session_id := some "s1",
    transcript := [{ role := "assistant", content := "Hello.", timestamp := 0 }],
    coll := [] }

theorem duplicate_teardown_single_report_witness :
    countFor "s1" (generate_feedback_on_end "alice" none "mock-interview"
        (some ("Good.", [("Overall Performance Summary", "Good.")])) true 2
        (generate_feedback_on_end "alice" none "mock-interview"
          (some ("Good.", [("Overall Performance Summary", "Good.")])) true 1
          egSessionEnd)).coll ≤ 1 :=
  duplicate_teardown_single_report "alice" none "mock-interview"
    (some ("Good.", [("Overall Performance Summary", "Good.")]))
    (some ("Good.", [("Overall Performance Summary", "Good.")]))
    true true 1 2 egSessionEnd "s1" (by decide)

/-! ## Session start: greeting and video-track check (C4)

`entrypoint` (voice_agent.py lines 695–769) computes the presence flags
with `check_and_subscribe_video_tracks`, optionally adds a system context
message, and then — in mock-interview mode — sends the greeting through
`session.say` unconditionally; no code path withholds the greeting or any
question until both tracks are present (the requirement is carried as
prompt text in `MOCK_INTERVIEW_PROMPT`). -/

def SOURCE_CAMERA : Nat := 1

def SOURCE_SCREEN_SHARE : Nat := 3

/-- Model of `check_and_subscribe_video_tracks`: the pair of flags
from the sources of the remote video publications. -/
def check_and_subscribe_video_tracks (sources : List Nat) : Bool × Bool :=
  (sources.any (fun s => s == SOURCE_CAMERA),
   sources.any (fun s => s == SOURCE_SCREEN_SHARE))

/-- The mock-interview greeting (lines 765–768). -/
def mockGreeting (user_name : Option String) : String :=
  match user_name with
  | some n => "Hello " ++ n ++ ". I'm Nila, and I'll be conducting your interview today. Please make sure to turn on your camera and share your screen."
  | none => "Hello. I'm Nila, and I'll be conducting your interview today. Please make sure to turn on your camera and share your screen."

/-- The statements `entrypoint` speaks before any user turn, as a function
of the mode and of the initially present video-track sources
(lines 762–769 and 857–859); `practiceGreeting` abstracts
`_generate_personalized_greeting`. The track sources do not influence the
emission. -/
def openingStatements (interview_mode : String) (user_name : Option String)
    (practiceGreeting : String) (sources : List Nat) : List String :=
  if interview_mode == "mock-interview" then [mockGreeting user_name]
  else [practiceGreeting]

/-- Counterexample to C4: in mock-interview mode with neither a camera nor
a screen-share track present, the opening statement is still emitted —
there is no `AwaitingPreconditions` gate in the code. -/
theorem opening_statement_not_gated :
    check_and_subscribe_video_tracks [] = (false, false) ∧
    openingStatements "mock-interview" (some "alice") "hi" [] =
      [mockGreeting (some "alice")] ∧
    (openingStatements "mock-interview" (some "alice") "hi" []).length = 1 :=
  ⟨rfl, rfl, rfl⟩

/-- C4 (amended): the mock-interview opening statement is emitted exactly
once, unconditionally, whatever tracks are present; the track check only
computes the presence flags (camera iff a camera-source publication
exists, screen share iff a screen-share-source publication exists). -/
theorem opening_statement_unconditional (user_name : Option String)
    (practiceGreeting : String) (sources : List Nat) :
    (openingStatements "mock-interview" user_name practiceGreeting
      sources).length = 1 ∧
    ((check_and_subscribe_video_tracks sources).1 = true ↔
      SOURCE_CAMERA ∈ sources) ∧
    ((check_and_subscribe_video_tracks sources).2 = true ↔
      SOURCE_SCREEN_SHARE ∈ sources) := by
  refine ⟨rfl, ?_, ?_⟩
  · show sources.any (fun s => s == SOURCE_CAMERA) = true ↔
      SOURCE_CAMERA ∈ sources
    rw [List.any_eq_true]
    constructor
    · rintro ⟨x, hx, hbeq⟩
      have hxe : x = SOURCE_CAMERA := by simpa using hbeq
      exact hxe ▸ hx
    · intro hmem
      exact ⟨SOURCE_CAMERA, hmem, by simp⟩
  · show sources.any (fun s => s == SOURCE_SCREEN_SHARE) = true ↔
      SOURCE_SCREEN_SHARE ∈ sources
    rw [List.any_eq_true]
    constructor
    · rintro ⟨x, hx, hbeq⟩
      have hxe : x = SOURCE_SCREEN_SHARE := by simpa using hbeq
      exact hxe ▸ hx
    · intro hmem
      exact ⟨SOURCE_SCREEN_SHARE, hmem, by simp⟩

/-! ## Screen-content compliance escalation (C5)

The escalation ladder is carried as instruction text in
`MOCK_INTERVIEW_PROMPT` (prompts.py lines 268–281): (1) warn immediately
when the screen leaves the interview application, (2) warn a second time
if the candidate has not returned within 10 seconds, (3) terminate the
interview if they still have not returned after another 10 seconds, and
stand down when they return. The machine below is that ladder observed
once per second. -/

inductive CompStage where
  | compliant
  | warned1
  | warned2
  | terminated
deriving DecidableEq

structure CompState where
  stage : CompStage
  timer : Nat
deriving DecidableEq

inductive CompEvent where
  | firstWarning
  | secondWarning
  | terminate
deriving DecidableEq

def compStep (st : CompState) (inScope : Bool) : CompState × List CompEvent :=
  match st.stage with
  | .terminated => (st, [])
  | .compliant =>
    if inScope then (st, [])
    else ({ stage := .warned1, timer := 0 }, [.firstWarning])
  | .warned1 =>
    if inScope then ({ stage := .compliant, timer := 0 }, [])
    else if st.timer + 1 ≥ 10 then
      ({ stage := .warned2, timer := 0 }, [.secondWarning])
    else ({ stage := .warned1, timer := st.timer + 1 }, [])
  | .warned2 =>
    if inScope then ({ stage := .compliant, timer := 0 }, [])
    else if st.timer + 1 ≥ 10 then
      ({ stage := .terminated, timer := 0 }, [.terminate])
    else ({ stage := .warned2, timer := st.timer + 1 }, [])

def compRun (st : CompState) : List Bool → CompState × List CompEvent
  | [] => (st, [])
  | b :: rest =>
    let r := compStep st b
    let rr := compRun r.1 rest
    (rr.1, r.2 ++ rr.2)

def initComp : CompState := { stage := .compliant, timer := 0 }

theorem compStep_terminated (st : CompState) (h : st.stage = .terminated)
    (b : Bool) : compStep st b = (st, []) := by
  unfold compStep
  rw [h]

theorem compRun_terminated (obs : List Bool) :
    ∀ st : CompState, st.stage = .terminated → compRun st obs = (st, []) := by
  induction obs with
  | nil => intro st _; rfl
  | cons b rest ih =>
    intro st h
    unfold compRun
    rw [compStep_terminated st h]
    simp only
    rw [ih st h]
    rfl

theorem compRun_append (l1 l2 : List Bool) :
    ∀ st : CompState,
      compRun st (l1 ++ l2) =
        ((compRun (compRun st l1).1 l2).1,
         (compRun st l1).2 ++ (compRun (compRun st l1).1 l2).2) := by
  induction l1 with
  | nil => intro st; simp [compRun]
  | cons b rest ih =>
    intro st
    simp only [List.cons_append, compRun, List.append_eq, ih, List.append_assoc]

theorem compRun_sustained_21 :
    compRun initComp (List.replicate 21 false) =
      ({ stage := .terminated, timer := 0 },
       [.firstWarning, .secondWarning, .terminate]) := by decide

/-- C5: out-of-scope screen content sustained for 20+ seconds from first
detection yields exactly the event sequence first-warning, second-warning,
termination (one termination, preceded by exactly two warnings); a return
to in-scope content at any point of stage 1 or stage 2 emits nothing and
resets the stage to compliant — in particular a return at t=15s leaves
just the two warnings and no termination. -/
theorem compliance_escalation :
    (∀ n, 21 ≤ n →
      (compRun initComp (List.replicate n false)).2 =
        [.firstWarning, .secondWarning, .terminate]) ∧
    (∀ st : CompState, st.stage = .warned1 ∨ st.stage = .warned2 →
      compStep st true = ({ stage := .compliant, timer := 0 }, [])) ∧
    (compRun initComp (List.replicate 15 false ++ [true])).1.stage =
      .compliant ∧
    (compRun initComp (List.replicate 15 false ++ [true])).2 =
      [.firstWarning, .secondWarning] := by
  refine ⟨?_, ?_, ?_, ?_⟩
  · intro n hn
    obtain ⟨k, rfl⟩ : ∃ k, n = 21 + k := ⟨n - 21, by omega⟩
    rw [List.replicate_add, compRun_append, compRun_sustained_21]
    simp only
    rw [compRun_terminated (List.replicate k false) _ rfl]
    rfl
  · intro st h
    unfold compStep
    rcases h with h | h <;> rw [h] <;> rfl
  · decide
  · decide

theorem compliance_escalation_witness :
    ((compRun initComp (List.replicate 21 false)).2 =
      [.firstWarning, .secondWarning, .terminate]) ∧
    compStep { stage := .warned1, timer := 3 } true =
      ({ stage := .compliant, timer := 0 }, []) :=
  ⟨compliance_escalation.1 21 (by decide),
   compliance_escalation.2.1 { stage := .warned1, timer := 3 } (Or.inl rfl)⟩

/-! ## Silence monitoring (C6) and its transcript frame effect (C10)

`monitor_silence_continuously` (voice_agent.py lines 632–693) ticks once a
second; `say_with_tracking` (lines 573–597) wraps `session.say`;
`on_user_turn_completed` (lines 144–170) resets the countdown. -/

/-- The slice of `InterviewAssistant` / session state read and written by
the silence machinery; `spoken` records every utterance `session.say`
produced. -/
structure AgentState where
  user_is_speaking : Bool
  last_question_time : Option Nat
  is_checking_silence : Bool
  transcript : List TranscriptEntry
  spoken : List String
deriving DecidableEq

/-- The silence-check utterance (line 670). -/
def silenceCheckMessage : String := "Are you still there? Can you hear me?"

/-- The unwrapped `session.say` (`original_say`): emits speech only. -/
def original_say (st : AgentState) (text : String) : AgentState :=
  { st with spoken := st.spoken ++ [text] }

/-- Model of `say_with_tracking`: call the original `say`; skip all tracking when
the text carries a silence-check phrase; otherwise append the utterance to
the transcript, clear the speaking flag and reset the timestamp. -/
def say_with_tracking (st : AgentState) (text : String) (now : Nat) :
    AgentState :=
  let st1 := original_say st text
  if pyContains text "Are you still there" || pyContains text "Can you hear me"
  then st1
  else
    { st1 with
        transcript := st1.transcript ++
          [{ role := "assistant", content := text, timestamp := now }],
        user_is_speaking := false,
        last_question_time := some now }

/-- One iteration of the `monitor_silence_continuously` loop body observed
at second `now`: skip when the user is speaking, when no timestamp is
armed, or when a check is already in flight; when at least 5 seconds have
elapsed since `last_question_time`, speak the silence check through
`original_say`, re-arm the timestamp to `now`, and (in `finally`) clear
the in-flight flag. The boolean reports whether a prompt was emitted. -/
def silenceTick (st : AgentState) (now : Nat) : AgentState × Bool :=
  if st.user_is_speaking then (st, false)
  else
    match st.last_question_time with
    | none => (st, false)
    | some t =>
      if st.is_checking_silence then (st, false)
      else if now - t ≥ 5 then
        ({ original_say st silenceCheckMessage with
            last_question_time := some now,
            is_checking_silence := false }, true)
      else (st, false)

/-- Ticks of the monitoring loop at the given seconds; returns the final
state and the times at which a silence prompt was emitted. -/
def silenceRun (st : AgentState) : List Nat → AgentState × List Nat
  | [] => (st, [])
  | now :: rest =>
    let r := silenceTick st now
    let rr := silenceRun r.1 rest
    (rr.1, (if r.2 then [now] else []) ++ rr.2)

/-- Model of `on_user_turn_completed`: append the user turn to the transcript (when
non-empty), set the speaking flag and clear the silence timestamp. -/
def on_user_turn_completed (st : AgentState) (user_content : String)
    (now : Nat) : AgentState :=
  let st1 :=
    if user_content ≠ "" then
      { st with transcript := st.transcript ++
          [{ role := "user", content := user_content, timestamp := now }] }
    else st
  { st1 with user_is_speaking := true, last_question_time := none }

/-- Prompts spaced at least 5 seconds apart, anchored at `t`. -/
def ChainSep : Nat → List Nat → Prop
  | _, [] => True
  | t, e :: es => t + 5 ≤ e ∧ ChainSep e es

/-- The state after the monitor fires a silence prompt: the check message
spoken, the timestamp re-armed, the in-flight flag cleared. -/
def silenceFireState (st : AgentState) (now : Nat) : AgentState :=
  { original_say st silenceCheckMessage with
      last_question_time := some now, is_checking_silence := false }

theorem silenceTick_eq_fire (st : AgentState) (now t : Nat)
    (h1 : st.user_is_speaking = false) (h2 : st.is_checking_silence = false)
    (h3 : st.last_question_time = some t) (h4 : 5 ≤ now - t) :
    silenceTick st now = (silenceFireState st now, true) := by
  unfold silenceTick silenceFireState
  simp [h1, h2, h3, h4]

theorem silenceTick_speaking (st : AgentState) (now : Nat)
    (h : st.user_is_speaking = true) : silenceTick st now = (st, false) := by
  unfold silenceTick
  rw [if_pos h]

/-- Each monitor tick either does nothing or fires: a prompt is emitted
only when the armed timestamp is at least 5 seconds old, and firing
re-arms the timestamp to `now`. -/
theorem silenceTick_spec (st : AgentState) (now : Nat) :
    silenceTick st now = (st, false) ∨
    ∃ t, st.last_question_time = some t ∧ 5 ≤ now - t ∧
      silenceTick st now = (silenceFireState st now, true) := by
  unfold silenceTick silenceFireState
  split
  · exact Or.inl rfl
  · split
    · exact Or.inl rfl
    · rename_i t heq
      split
      · exact Or.inl rfl
      · split
        · rename_i hge
          exact Or.inr ⟨t, heq, hge, rfl⟩
        · exact Or.inl rfl

theorem silenceRun_cons (st : AgentState) (now : Nat) (rest : List Nat) :
    silenceRun st (now :: rest) =
      ((silenceRun (silenceTick st now).1 rest).1,
       (if (silenceTick st now).2 then [now] else []) ++
         (silenceRun (silenceTick st now).1 rest).2) := rfl

theorem silenceRun_of_speaking (times : List Nat) :
    ∀ st : AgentState, st.user_is_speaking = true →
      silenceRun st times = (st, []) := by
  induction times with
  | nil => intro st _; rfl
  | cons now rest ih =>
    intro st h
    rw [silenceRun_cons, silenceTick_speaking st now h]
    rw [ih st h]
    rfl

/-- Prompts a run emits are at least 5 seconds apart, anchored at the
armed timestamp: the timestamp is re-armed to the emission time, so the
next prompt needs 5 further seconds of silence. -/
theorem silenceRun_chainSep (times : List Nat) :
    ∀ (st : AgentState) (t : Nat), st.last_question_time = some t →
      ChainSep t (silenceRun st times).2 := by
  induction times with
  | nil => intro st t _; trivial
  | cons now rest ih =>
    intro st t hlq
    rw [silenceRun_cons]
    rcases silenceTick_spec st now with h | ⟨t', hlq', hge, h⟩
    · rw [h]
      show ChainSep t ([] ++ (silenceRun st rest).2)
      rw [List.nil_append]
      exact ih st t hlq
    · rw [h]
      have ht : t' = t := by
        rw [hlq] at hlq'
        exact (Option.some.inj hlq').symm
      show ChainSep t ([now] ++ (silenceRun (silenceFireState st now) rest).2)
      refine ⟨by omega, ?_⟩
      exact ih (silenceFireState st now) now rfl

def egAgentState : AgentState :=
  { user_is_speaking := false, last_question_time := some 0,
    is_checking_silence := false, transcript := [], spoken := [] }

/-- C6: while no participant turn arrives, a prompt fires exactly when 5
seconds have elapsed since the armed timestamp and no check is in flight,
re-arming the timestamp to now; consecutive prompts are therefore at least
5 seconds apart (never two in one window), second-by-second monitoring
from an armed timestamp 0 fires exactly at 5, 10, 15; and a completed
participant turn stops the countdown for good. -/
theorem silence_escalation_cadence :
    (∀ (st : AgentState) (now t : Nat),
      st.user_is_speaking = false → st.is_checking_silence = false →
      st.last_question_time = some t →
      (5 ≤ now - t →
        silenceTick st now = (silenceFireState st now, true) ∧
        (silenceFireState st now).last_question_time = some now) ∧
      (now - t < 5 → silenceTick st now = (st, false))) ∧
    (∀ (times : List Nat) (st : AgentState) (t : Nat),
      st.last_question_time = some t →
      ChainSep t (silenceRun st times).2) ∧
    ((silenceRun egAgentState
        [1, 2, 3, 4, 5, 6, 7, 8, 9, 10, 11, 12, 13, 14, 15]).2 = [5, 10, 15]) ∧
    (∀ (times : List Nat) (st : AgentState) (c : String) (now0 : Nat),
      (silenceRun (on_user_turn_completed st c now0) times).2 = []) := by
  refine ⟨?_, silenceRun_chainSep, by decide, ?_⟩
  · intro st now t h1 h2 h3
    constructor
    · intro h4
      exact ⟨silenceTick_eq_fire st now t h1 h2 h3 h4, rfl⟩
    · intro h4
      rcases silenceTick_spec st now with h | ⟨t', hlq', hge, h⟩
      · exact h
      · rw [h3] at hlq'
        have ht : t = t' := Option.some.inj hlq'
        omega
  · intro times st c now0
    have h : (on_user_turn_completed st c now0).user_is_speaking = true := by
      unfold on_user_turn_completed
      split <;> rfl
    rw [silenceRun_of_speaking times _ h]

theorem silence_escalation_cadence_witness :
    (silenceTick egAgentState 5 = (silenceFireState egAgentState 5, true) ∧
      (silenceFireState egAgentState 5).last_question_time = some 5) ∧
    ChainSep 0 (silenceRun egAgentState [1, 2, 3, 4, 5, 6]).2 ∧
    (silenceRun (on_user_turn_completed egAgentState "I am here." 3)
      [4, 5, 6, 7, 8, 9]).2 = [] :=
  ⟨(silence_escalation_cadence.1 egAgentState 5 0 rfl rfl rfl).1 (by decide),
   silence_escalation_cadence.2.1 [1, 2, 3, 4, 5, 6] egAgentState 0 rfl,
   silence_escalation_cadence.2.2.2 [4, 5, 6, 7, 8, 9] egAgentState
     "I am here." 3⟩

/-- C10: emitting a silence prompt leaves the transcript unchanged — the
monitor speaks through the unwrapped `say`, which never touches the
transcript, and the tracking wrapper explicitly skips any utterance
carrying a silence-check phrase (which the monitor's message carries). -/
theorem silence_prompt_frame_effect :
    (∀ (st : AgentState) (now : Nat),
      (silenceTick st now).1.transcript = st.transcript) ∧
    (∀ (st : AgentState) (text : String),
      (original_say st text).transcript = st.transcript) ∧
    (∀ (st : AgentState) (text : String) (now : Nat),
      (pyContains text "Are you still there" ||
        pyContains text "Can you hear me") = true →
      (say_with_tracking st text now).transcript = st.transcript) ∧
    pyContains silenceCheckMessage "Are you still there" = true := by
  refine ⟨?_, fun _ _ => rfl, ?_, by decide⟩
  · intro st now
    rcases silenceTick_spec st now with h | ⟨t, _, _, h⟩ <;> rw [h] <;> rfl
  · intro st text now h
    unfold say_with_tracking
    rw [if_pos h]
    rfl

theorem silence_prompt_frame_effect_witness :
    ((silenceTick egAgentState 5).1.transcript = egAgentState.transcript) ∧
    ((say_with_tracking egAgentState
        "Are you still there? Can you hear me?" 5).transcript =
      egAgentState.transcript) :=
  ⟨silence_prompt_frame_effect.1 egAgentState 5,
   silence_prompt_frame_effect.2.2.1 egAgentState
     "Are you still there? Can you hear me?" 5 (by decide)⟩

end InterviewAgent
